import Mathlib

/-!
Verification of the raycast-scoop core: a shallow embedding of the
manifest reader, the executable locator, the version-check engine and
the installed-package enumeration, translated from `src/core/index.ts`
and `src/logic/index.ts`.

JavaScript dynamic values (parsed JSON plus `undefined`) are embedded
as the inductive type `Jval`.  Asynchronous, fallible operations
(network fetches, file reads, the regex engine) are oracles supplied by
an environment record; repository logic is translated directly.
-/

/-- A JavaScript runtime value as it occurs in this code base: parsed
JSON data plus the distinguished `undefined` value. -/
inductive Jval where
  | undefined : Jval
  | null : Jval
  | bool : Bool → Jval
  | num : Int → Jval
  | str : String → Jval
  | arr : List Jval → Jval
  | obj : List (String × Jval) → Jval

/-- JavaScript truthiness of a `Jval` (`if (v)`): `undefined`, `null`,
`false`, `0` and `""` are falsy; every array and object is truthy. -/
def truthy : Jval → Bool
  | .undefined => false
  | .null => false
  | .bool b => b
  | .num n => n != 0
  | .str s => s != ""
  | .arr _ => true
  | .obj _ => true

/-- JavaScript property access `v[k]` in the positions where the
receiver is known not to be `null`/`undefined`: a missing key, or a
receiver without properties, yields `undefined`. -/
def getProp : Jval → String → Jval
  | .obj kvs, k => ((kvs.find? (fun kv => kv.1 == k)).map (fun kv => kv.2)).getD .undefined
  | _, _ => .undefined

/-- JavaScript property access `v.k` where `v` may be `null` or
`undefined`, in which case a `TypeError` is thrown. -/
def getPropOrThrow (v : Jval) (k : String) : Except Unit Jval :=
  match v with
  | .undefined => .error ()
  | .null => .error ()
  | v => .ok (getProp v k)

/-- The JavaScript `a || b` operator on values. -/
def jsOr (a b : Jval) : Jval := if truthy a then a else b

/-- The JavaScript `a ?? b` operator on values. -/
def nullish (a b : Jval) : Jval :=
  match a with
  | .undefined => b
  | .null => b
  | v => v

mutual

/-- One step of `Array.prototype.flat(Infinity)`: an array contributes
its fully flattened elements, any other value contributes itself. -/
def flattenV : Jval → List Jval
  | .arr l => flattenL l
  | v => [v]

/-- `Array.prototype.flat(Infinity)` on the elements of an array. -/
def flattenL : List Jval → List Jval
  | [] => []
  | x :: xs => flattenV x ++ flattenL xs

end

mutual

/-- JavaScript `String(v)` coercion as used when interpolating a value
into a template string or a fetch URL. -/
def jsToString : Jval → String
  | .undefined => "undefined"
  | .null => "null"
  | .bool true => "true"
  | .bool false => "false"
  | .num n => toString n
  | .str s => s
  | .arr l => jsArrToString l
  | .obj _ => "[object Object]"

/-- `Array.prototype.toString` (join with `,`; `null` and `undefined`
elements become empty). -/
def jsArrToString : List Jval → String
  | [] => ""
  | [x] => jsElemToString x
  | x :: xs => jsElemToString x ++ "," ++ jsArrToString xs

/-- Element rendering inside `Array.prototype.toString`. -/
def jsElemToString : Jval → String
  | .undefined => ""
  | .null => ""
  | v => jsToString v

end

/-- Minimal JSON string escaping as performed by `JSON.stringify`. -/
def jsonEscape (s : String) : String :=
  s.data.foldl
    (fun acc c =>
      if c == '\\' then acc ++ "\\\\"
      else if c == '\"' then acc ++ "\\\""
      else if c == '\n' then acc ++ "\\n"
      else if c == '\r' then acc ++ "\\r"
      else if c == '\t' then acc ++ "\\t"
      else acc.push c)
    ""

mutual

/-- `JSON.stringify` on a defined value (object keys in insertion
order, `undefined` object values omitted, no added whitespace). -/
def stringify : Jval → String
  | .undefined => "undefined"
  | .null => "null"
  | .bool true => "true"
  | .bool false => "false"
  | .num n => toString n
  | .str s => "\"" ++ jsonEscape s ++ "\""
  | .arr l => "[" ++ String.intercalate "," (stringifyArr l) ++ "]"
  | .obj kvs => "\x7b" ++ String.intercalate "," (stringifyObj kvs) ++ "\x7d"

/-- Array elements of `JSON.stringify` (`undefined` becomes `null`). -/
def stringifyArr : List Jval → List String
  | [] => []
  | .undefined :: xs => "null" :: stringifyArr xs
  | x :: xs => stringify x :: stringifyArr xs

/-- Object members of `JSON.stringify`; members whose value is
`undefined` are omitted. -/
def stringifyObj : List (String × Jval) → List String
  | [] => []
  | (_, .undefined) :: rest => stringifyObj rest
  | (k, v) :: rest => ("\"" ++ jsonEscape k ++ "\":" ++ stringify v) :: stringifyObj rest

end

/-! ## Model of the external `semver` library's `clean`

The repository calls `clean` from the npm `semver` package (not part of
this repository).  Modelled from that library's documented behaviour:
trim, strip a leading run of `=`/`v` characters, parse strictly as a
semantic version (an optional further leading `v` is tolerated by the
parser), and render the canonical `major.minor.patch[-prerelease]`
form (build metadata dropped); `none` when parsing fails. -/

/-- Split a character list at every occurrence of a separator
character (the list analogue of `String.split`). -/
def splitChar (sep : Char) : List Char → List (List Char)
  | [] => [[]]
  | c :: cs =>
    let r := splitChar sep cs
    if c == sep then [] :: r
    else
      match r with
      | h :: t => (c :: h) :: t
      | [] => [[c]]

/-- Join character lists with a separator character. -/
def joinChar (sep : Char) : List (List Char) → List Char
  | [] => []
  | [x] => x
  | x :: xs => x ++ sep :: joinChar sep xs

/-- Trim leading and trailing whitespace. -/
def trimChars (l : List Char) : List Char :=
  ((l.dropWhile Char.isWhitespace).reverse.dropWhile Char.isWhitespace).reverse

/-- A strict numeric identifier: digits only, no leading zero. -/
def validNum (s : List Char) : Bool :=
  !s.isEmpty && s.all (fun c => c.isDigit) &&
    (s.length == 1 || s.headD '0' != '0')

/-- A build identifier: nonempty, over `[0-9A-Za-z-]`. -/
def validIdChars (s : List Char) : Bool :=
  !s.isEmpty && s.all (fun c => c.isDigit || c.isAlpha || c == '-')

/-- A prerelease identifier: either a strict numeric identifier or an
alphanumeric-with-hyphen identifier containing a non-digit. -/
def validPreId (s : List Char) : Bool :=
  validIdChars s &&
    (if s.all (fun c => c.isDigit) then validNum s else true)

/-- The `major.minor.patch[-prerelease]` part of a strict parse. -/
def checkMainVersion (main : List Char) : Option String :=
  match splitChar '-' main with
  | [] => none
  | core :: preParts =>
    let coreOk :=
      match splitChar '.' core with
      | [ma, mi, pa] => validNum ma && validNum mi && validNum pa
      | _ => false
    if !coreOk then none
    else if preParts.isEmpty then some (String.mk core)
    else
      let pre := joinChar '-' preParts
      if (splitChar '.' pre).all validPreId then
        some (String.mk (core ++ '-' :: pre))
      else none

/-- Strict semantic-version parse of an (already trimmed and
`=`/`v`-stripped) character list, returning the canonical rendering
(build metadata dropped; one further leading `v` tolerated). -/
def parseSemverStrict (s : List Char) : Option String :=
  let s := match s with | 'v' :: rest => rest | _ => s
  match splitChar '+' s with
  | [main] => checkMainVersion main
  | [main, build] =>
    if (splitChar '.' build).all validIdChars then checkMainVersion main
    else none
  | _ => none

/-- Model of `semver.clean` (strict, no options), as called at
`src/core/index.ts` line 132. -/
def cleanSemver (raw : String) : Option String :=
  parseSemverStrict
    ((trimChars raw.data).dropWhile (fun c => c == '=' || c == 'v'))

/-! ## Small string helpers translated from the source -/

/-- The four literal strings matched by the regular expression
`https?:\/\/(www\.)?github\.com\/` (the optional groups expanded). -/
def githubUrlForms : List (List Char) :=
  [("https://www.github.com/" : String).data,
   ("http://www.github.com/" : String).data,
   ("https://github.com/" : String).data,
   ("http://github.com/" : String).data]

/-- `String.prototype.replace` with the (non-global) pattern
`https?:\/\/(www\.)?github\.com\/` and empty replacement: delete the
first occurrence of any of the four expanded literals. -/
def dropGithubUrlChars : List Char → List Char
  | [] => []
  | c :: cs =>
    match githubUrlForms.find? (fun p => p.isPrefixOf (c :: cs)) with
    | some p => (c :: cs).drop p.length
    | none => c :: dropGithubUrlChars cs

/-- `homepage.replace(/https?:\/\/(www\.)?github\.com\//, '')`. -/
def dropGithubUrl (s : String) : String := String.mk (dropGithubUrlChars s.data)

/-- `s.replace(/^\//, '')`: strip one leading slash. -/
def stripLeadingSlash (s : String) : String :=
  if s.startsWith "/" then s.drop 1 else s

/-- `s.replace(/^v/, '')`: strip one leading lowercase `v`. -/
def stripLeadingV (s : String) : String :=
  if s.startsWith "v" then s.drop 1 else s

/-! ## `getFirstFlatItem` (`src/unnamed/part_000`, lines 79-86) -/

/-- `getFirstFlatItem`: a non-array value is returned unchanged; an
array is flattened with `flat(Infinity)` and its first element is
returned (`undefined` when the flattening is empty). -/
def getFirstFlatItem : Jval → Jval
  | .arr l => (flattenL l).headD .undefined
  | v => v

/-! ## Executable locator, first variant
(`Scoop.getAppExeFromManifest`, `src/core/index.ts` lines 79-124) -/

/-- The `process.arch` → architecture-key mapping of the locator. -/
def archKey (processArch : String) : String :=
  if processArch == "x64" then "64bit"
  else if processArch == "ia32" then "32bit"
  else if processArch == "arm64" then "arm64"
  else "unknown"

/-- One `shortcuts`/`bin` probe of the first locator variant: when the
declaration is truthy and its first flattened item is a string, that
string is the result. -/
def probeFlatString (v : Jval) : Option String :=
  if truthy v then
    match getFirstFlatItem v with
    | .str s => some s
    | _ => none
  else none

/-- `Scoop.getAppExeFromManifest` (first variant): top-level
`shortcuts`, then top-level `bin`, then the architecture block keyed by
the running architecture (absent key → `""`), probing `shortcuts` then
`bin` inside it; `""` when nothing matchList.  Total: never throws. -/
def getAppExeFromManifest (processArch : String) (m : Jval) : String :=
  match probeFlatString (getProp m "shortcuts") with
  | some s => s
  | none =>
  match probeFlatString (getProp m "bin") with
  | some s => s
  | none =>
    if truthy (getProp m "architecture") then
      let archConfig := getProp (getProp m "architecture") (archKey processArch)
      if !truthy archConfig then ""
      else
        match probeFlatString (getProp archConfig "shortcuts") with
        | some s => s
        | none =>
          match probeFlatString (getProp archConfig "bin") with
          | some s => s
          | none => ""
    else ""

/-! ## Executable locator, second variant
(`Scoop.getAppExeFromManifest`, `src/core/index.ts` lines 399-452).
This variant inlines the flattening (`typeof === 'string'` check, then
`(x as Array<any>).flat(Infinity)[0]`, which throws on a truthy
non-string non-array) and accesses
`manifestContent.architecture[arch].shortcuts` without first checking
that the architecture key is present, which throws a `TypeError` when
it is absent. -/

/-- One `shortcuts`/`bin` probe of the second locator variant. -/
def probeFlatStringV2 (v : Jval) : Except Unit (Option String) :=
  if truthy v then
    match v with
    | .str s => .ok (some s)
    | .arr l =>
      .ok (match (flattenL l).headD .undefined with
           | .str s => some s
           | _ => none)
    | _ => .error ()
  else .ok none

/-- `Scoop.getAppExeFromManifest` (second variant): same resolution
order, but the architecture block is dereferenced without a presence
check, so a missing architecture key raises a `TypeError`. -/
def getAppExeFromManifestV2 (processArch : String) (m : Jval) :
    Except Unit String := do
  match ← probeFlatStringV2 (getProp m "shortcuts") with
  | some s => return s
  | none =>
  match ← probeFlatStringV2 (getProp m "bin") with
  | some s => return s
  | none =>
    if truthy (getProp m "architecture") then
      let archConfig := getProp (getProp m "architecture") (archKey processArch)
      let sc ← getPropOrThrow archConfig "shortcuts"
      match ← probeFlatStringV2 sc with
      | some s => return s
      | none =>
        let b ← getPropOrThrow archConfig "bin"
        match ← probeFlatStringV2 b with
        | some s => return s
        | none => return ""
    else return ""

/-! ## Version check engine
(`Scoop.checkNewVersion`, `src/core/index.ts` lines 126-254) -/

/-- The installed-package record (`AppInfo`, `src/core/index.ts` lines
41-50).  The TypeScript types promise strings, but the values come
from untyped JSON, so the fields normalised by `getAppInfo` are kept
as runtime values. -/
structure AppInfo where
  appName : String
  dirPath : String
  version : Jval
  description : Jval
  exeName : String
  homepage : Jval
  checkver : Jval
  bucket : Jval

/-- One match produced by the JavaScript regex engine: the whole
matched text (`match[0]`), the numbered capture groups (`match[1]`,
…; `none` for a group that did not participate) and the named-group
object `match.groups` (`none` when the pattern has no named group). -/
structure RegexMatch where
  whole : String
  caps : List (Option String)
  named : Option (List (String × String))

/-- The engine's external collaborators, as oracles: `fetch` followed
by `.json()`, `fetch` followed by `.text()`, `new RegExp(p, 'g')` plus
`content.matchAll`, and `new RegExp(p)` plus `content.match`.  An
`error` models a thrown exception (network failure, JSON parse
failure, malformed regex). -/
structure Env where
  fetchJson : String → Except Unit Jval
  fetchText : String → Except Unit String
  matchAll : Jval → String → Except Unit (List RegexMatch)
  matchFirst : Jval → String → Except Unit (Option RegexMatch)

/-- A value in a position where JavaScript invokes a string method on
it (`.replace`, …): non-strings raise a `TypeError`. -/
def asString (v : Jval) : Except Unit String :=
  match v with
  | .str s => .ok s
  | _ => .error ()

/-- `match[1] ?? match[0] ?? ''`. -/
def firstCapOrWhole (m : RegexMatch) : Jval :=
  match m.caps.headD none with
  | some s => .str s
  | none => .str m.whole

/-- Replace every (non-overlapping, left-to-right) occurrence of a
nonempty pattern, with enough fuel to scan the whole input. -/
def replaceAllAux (pat rep : List Char) : Nat → List Char → List Char
  | _, [] => []
  | 0, l => l
  | fuel + 1, c :: cs =>
    if pat.isPrefixOf (c :: cs) then
      rep ++ replaceAllAux pat rep fuel ((c :: cs).drop pat.length)
    else c :: replaceAllAux pat rep fuel cs

/-- `s.replace(new RegExp(escapedPattern, 'g'), rep)` for a literal
pattern: replace every occurrence. -/
def strReplaceAll (s pat rep : String) : String :=
  if pat.data.isEmpty then s
  else String.mk (replaceAllAux pat.data rep.data s.data.length s.data)

/-- `$\x7bkey\x7d`: the template placeholder for a named group. -/
def groupPlaceholder (key : String) : String := "$\x7b" ++ key ++ "\x7d"

/-- The `replace`-template block (`src/core/index.ts` lines 185-193
and 230-237): `let replaced = checkver.replace; if (match.groups) \x7b
for key in groups replaced = replaced.replace(placeholder-regex, value)
\x7d; return replaced`.  When the groups object exists and is nonempty
the template must be a string (else `.replace` throws); when it is
absent the raw `replace` value is returned unchanged. -/
def applyReplace (replaceVal : Jval) (named : Option (List (String × String))) :
    Except Unit Jval :=
  match named with
  | none => .ok replaceVal
  | some groups =>
    match replaceVal with
    | .str s =>
      .ok (.str (groups.foldl
        (fun acc kv => strReplaceAll acc (groupPlaceholder kv.1) kv.2) s))
    | v => if groups.isEmpty then .ok v else .error ()

/-- `releases.find((release) => !release.prerelease)`: throws unless
the receiver is an array (calling `.find` on anything else in this
code path is a `TypeError`). -/
def selectLatestRelease (releases : Jval) : Except Unit (Option Jval) :=
  match releases with
  | .arr l => .ok (l.find? (fun r => !truthy (getProp r "prerelease")))
  | _ => .error ()

/-- `latest?.tag_name ?? ''` for a found release. -/
def tagNameOrEmpty (latest : Option Jval) : Jval :=
  match latest with
  | some r => nullish (getProp r "tag_name") (.str "")
  | none => .str ""

/-- The GitHub releases-list API URL for a repo path. -/
def githubApiUrl (repo : String) : String :=
  "https://api.github.com/repos/" ++ repo ++ "/releases"

/-- The structured-`checkver` branch of `_checkNewVersion`
(`src/core/index.ts` lines 164-242): `script` short-circuits to `''`;
then `github`, `sourceforge` and `url` sources are tried in order;
anything else falls through to `''`. -/
def checkverObjBranch (env : Env) (cv : Jval) : Except Unit Jval := do
  if truthy (getProp cv "script") then
    return .str ""
  else if truthy (getProp cv "github") then do
    let gh ← asString (getProp cv "github")
    let releases ← env.fetchJson (githubApiUrl (dropGithubUrl gh))
    let latest ← selectLatestRelease releases
    if truthy (getProp cv "regex") then do
      let latestObj ←
        match latest with
        | some r => pure r
        | none => Except.error ()
      let matchList ← env.matchAll (getProp cv "regex") (stringify latestObj)
      match matchList with
      | [] => return .str ""
      | m :: _ =>
        if truthy (getProp cv "replace") then
          applyReplace (getProp cv "replace") m.named
        else
          return firstCapOrWhole m
    else
      return tagNameOrEmpty latest
  else if truthy (getProp cv "sourceforge") then do
    let rssBase :=
      "https://sourceforge.net/projects/" ++ jsToString (getProp cv "sourceforge")
        ++ "/rss"
    let rssUrl ←
      if truthy (getProp cv "sourceforgepath") then do
        let sp ← asString (getProp cv "sourceforgepath")
        pure (rssBase ++ "?path=" ++ stripLeadingSlash sp)
      else pure rssBase
    let xml ← env.fetchText rssUrl
    let linkMatch ← env.matchFirst (.str "<link>(.*?)<\\/link>") xml
    match linkMatch with
    | some lm =>
      if truthy (jsOr (getProp cv "regex") (getProp cv "re")) then do
        let cap ←
          match lm.caps.headD none with
          | some c => pure c
          | none => Except.error ()
        let verMatch ← env.matchFirst (jsOr (getProp cv "regex") (getProp cv "re")) cap
        match verMatch with
        | some vm =>
          match vm.caps.headD none with
          | some s => return .str (stripLeadingV s)
          | none => Except.error ()
        | none => return .str ""
      else
        return (match lm.caps.headD none with
                | some s => .str s
                | none => .undefined)
    | none => return .str ""
  else if truthy (getProp cv "url") then do
    let content ← env.fetchText (jsToString (getProp cv "url"))
    if truthy (jsOr (getProp cv "regex") (getProp cv "re")) then do
      let matchList ← env.matchAll (jsOr (getProp cv "regex") (getProp cv "re")) content
      match matchList with
      | [] => return .str ""
      | m0 :: rest =>
        let m := if truthy (getProp cv "reverse")
                 then (m0 :: rest).getLast (List.cons_ne_nil m0 rest)
                 else m0
        if truthy (getProp cv "replace") then
          applyReplace (getProp cv "replace") m.named
        else
          return firstCapOrWhole m
    else
      return .str ""
  else
    return .str ""

/-- `_checkNewVersion` (`src/core/index.ts` lines 135-245).  A string
`checkver` is either the `"github"` sentinel or a regex to run against
the fetched homepage; an object (or array: `typeof` is `'object'`)
dispatches to the structured branch; anything else yields `''`. -/
def _checkNewVersion (env : Env) (app : AppInfo) : Except Unit Jval := do
  match app.checkver with
  | .str cv =>
    if cv == "github" then do
      let hp ← asString app.homepage
      let releases ← env.fetchJson (githubApiUrl (dropGithubUrl hp))
      let latest ← selectLatestRelease releases
      return tagNameOrEmpty latest
    else do
      let content ← env.fetchText (jsToString app.homepage)
      let matchList ← env.matchAll (.str cv) content
      match matchList with
      | [] => return .str ""
      | m :: _ => return firstCapOrWhole m
  | .obj kvs => checkverObjBranch env (.obj kvs)
  | .arr l => checkverObjBranch env (.arr l)
  | _ => return .str ""

/-- The `format` post-processing (`src/core/index.ts` lines 131-133):
`clean(rawVersion) || ''`.  `semver.clean` calls `.trim()` on its
argument, so a non-string raw value throws. -/
def format (v : Jval) : Except Unit String :=
  match v with
  | .str s => .ok ((cleanSemver s).getD "")
  | _ => .error ()

/-- `format` on a raw string result. -/
def formatStr (s : String) : String := (cleanSemver s).getD ""

/-- `Scoop.checkNewVersion` (`src/core/index.ts` lines 130-254):
`try { return format(await _checkNewVersion(app)) } catch { return '' }`. -/
def checkNewVersion (env : Env) (app : AppInfo) : String :=
  match (do format (← _checkNewVersion env app) : Except Unit String) with
  | .ok s => s
  | .error _ => ""

/-! ## Manifest reader and installed-package enumeration
(`Scoop.getAppInfo` / `Scoop.getScoopList`, `src/core/index.ts`
lines 256-341 and 485-542) -/

/-- The on-disk world as seen by the enumeration: the outcome of the
`access` checks of `isValidScoopRoot`, the outcome of reading the
`apps` directory (`getAllDirs`, which throws on failure), and per
path the outcome of `JSON.parse(await readFile(path, 'utf-8'))`
(an `error` models a missing, unreadable or invalid-JSON file). -/
structure FS where
  rootAccessOk : Bool
  appsDirs : Except Unit (List String)
  readJson : String → Except Unit Jval

/-- `Scoop.isValidScoopRoot`: the configured root is nonempty and both
`access` probes succeed. -/
def isValidScoopRoot (fs : FS) (root : String) : Bool :=
  root != "" && fs.rootAccessOk

/-- The `description` normalisation (`src/core/index.ts` lines
267-269): `Array.isArray(d) ? d[0] : d`.  An absent field stays
`undefined`; an empty list yields `undefined`. -/
def normalizeDescription (m : Jval) : Jval :=
  match getProp m "description" with
  | .arr l => l.headD .undefined
  | v => v

/-- The record construction of `getAppInfo` (`src/core/index.ts`
lines 266-284) from the two parsed files. -/
def mkAppInfo (processArch : String) (appName appDirPath : String)
    (m inst : Jval) : AppInfo :=
  { appName := appName
    dirPath := appDirPath
    version := getProp m "version"
    description := normalizeDescription m
    homepage := jsOr (getProp m "homepage") (.str "")
    checkver := jsOr (getProp m "checkver")
      (.obj [("url", .str ""), ("regex", .str "")])
    bucket := jsOr (getProp inst "bucket") (.str "unknown")
    exeName := getAppExeFromManifest processArch m }

/-- The path `{root}/apps/{name}/current`. -/
def appCurrentDir (root appName : String) : String :=
  root ++ "/apps/" ++ appName ++ "/current"

/-- `Scoop.getAppInfo` (`src/core/index.ts` lines 256-289): parse
`manifest.json` and `install.json` under the app's `current`
directory; any thrown error is caught and becomes `null`. -/
def getAppInfo (fs : FS) (processArch : String) (root appName : String) :
    Option AppInfo :=
  let appDirPath := appCurrentDir root appName
  match (do
      let m ← fs.readJson (appDirPath ++ "/manifest.json")
      let inst ← fs.readJson (appDirPath ++ "/install.json")
      Except.ok (mkAppInfo processArch appName appDirPath m inst)
      : Except Unit AppInfo) with
  | .ok a => some a
  | .error _ => none

/-- `Scoop.getScoopList` (first variant, `src/core/index.ts` lines
318-341): validate the root, list the app directories, fail when the
list is empty, then resolve every app and keep the non-`null`
records (`appList.filter(Boolean)`). -/
def getScoopList (fs : FS) (processArch : String) (root : String) :
    Except String (List AppInfo) :=
  if !isValidScoopRoot fs root then .error "Scoop root is invalid or not set."
  else
    match fs.appsDirs with
    | .error _ => .error "Failed to read Scoop apps directory."
    | .ok dirs =>
      if dirs.length == 0 then .error "No Scoop apps found."
      else .ok ((dirs.map (fun n => getAppInfo fs processArch root n)).filterMap id)

/-- The installed-package record of the second variant (`AppInfo`,
`src/core/index.ts` lines 353-362). -/
structure AppInfoV2 where
  name : String
  dirPath : String
  version : Jval
  description : Jval
  exePath : String
  homepage : Jval
  checkver : Jval
  bucket : Jval

/-- One loop iteration of the second `getScoopList` variant
(`src/core/index.ts` lines 505-539): parse both files, locate the
executable with the second locator variant (whose exceptions are
caught here too), and build the record; any error skips the app. -/
def appInfoV2 (fs : FS) (processArch : String) (scoopAppsPath appDirName : String) :
    Option AppInfoV2 :=
  let appDirPath := scoopAppsPath ++ "/" ++ appDirName ++ "/current"
  match (do
      let m ← fs.readJson (appDirPath ++ "/manifest.json")
      let inst ← fs.readJson (appDirPath ++ "/install.json")
      let exeName ← getAppExeFromManifestV2 processArch m
      Except.ok
        { name := appDirName
          dirPath := appDirPath
          version := getProp m "version"
          description := normalizeDescription m
          homepage := jsOr (getProp m "homepage") (.str "")
          checkver := jsOr (getProp m "checkver")
            (.obj [("url", .str ""), ("regex", .str "")])
          bucket := jsOr (getProp inst "bucket") (.str "unknown")
          exePath := appDirPath ++ "/" ++ exeName }
      : Except Unit AppInfoV2) with
  | .ok a => some a
  | .error _ => none

/-- `Scoop.getScoopList` (second variant, `src/core/index.ts` lines
485-542): same validation and empty check, then a sequential loop
with a per-app `try`/`catch` that skips failing apps. -/
def getScoopListV2 (fs : FS) (processArch : String) (root : String) :
    Except String (List AppInfoV2) :=
  if !isValidScoopRoot fs root then .error "Scoop root is invalid or not set."
  else
    match fs.appsDirs with
    | .error _ => .error "Failed to read Scoop apps directory."
    | .ok dirs =>
      if dirs.length == 0 then .error "No Scoop apps found."
      else .ok (dirs.filterMap (fun n => appInfoV2 fs processArch (root ++ "/apps") n))

/-! ## `execPromise` (`src/logic/index.ts` lines 5-20)

The `exec` callback may call `resolve`/`reject` more than once; a
JavaScript promise keeps the first settlement.  The callback body is
modelled as the ordered list of settlement calls it performs, and the
promise outcome as the first of them. -/

/-- How a promise settles. -/
inductive Settle where
  | resolved : Settle
  | rejected : Settle
deriving DecidableEq

/-- The `error` argument of the `exec` callback: absent on success,
otherwise carries the process exit code (absent when killed by a
signal). -/
structure ExecError where
  code : Option Int

/-- `command.startsWith(prefix)`, computed on the character lists. -/
def strStartsWith (p s : String) : Bool := p.data.isPrefixOf s.data

/-- The settlement calls performed by the `execPromise` callback, in
order: the `explorer /select` special case first (`resolve()` when the
command starts with `explorer /select` and `error?.code === 1` —
note the missing `return`, so control falls through), then
`if (error) reject(error) else resolve()`. -/
def execPromiseSettles (command : String) (err : Option ExecError) : List Settle :=
  (if strStartsWith "explorer /select" command
      && (err.map (fun e => e.code == some 1)).getD false
   then [.resolved] else [])
  ++ (match err with
      | some _ => [.rejected]
      | none => [.resolved])

/-- The outcome of the promise returned by `execPromise`: the first
settlement wins. -/
def execPromiseOutcome (command : String) (err : Option ExecError) : Settle :=
  (execPromiseSettles command err).headD .rejected

/-! ## Theorems -/

/-- The `try`/`catch` structure of `checkNewVersion`, as a case
analysis on the inner resolution. -/
theorem checkNewVersion_unfold (env : Env) (app : AppInfo) :
    checkNewVersion env app =
      match _checkNewVersion env app with
      | .ok v => match format v with | .ok s => s | .error _ => ""
      | .error _ => "" := by
  unfold checkNewVersion
  cases h : _checkNewVersion env app <;> simp [h, Bind.bind, Except.bind]

/-- `formatStr ""` is the empty string (`clean('')` is `null`). -/
theorem formatStr_empty : formatStr "" = "" := rfl

/-- C1: `checkNewVersion` never propagates an exception: any error
thrown anywhere during resolution collapses to the empty string, an
unsupported (`script`) strategy yields the empty string, and a regex
strategy with no match yields the empty string. -/
theorem checkNewVersion_collapses_errors (env : Env) (app : AppInfo) :
    (∀ e : Unit, _checkNewVersion env app = .error e →
       checkNewVersion env app = "") ∧
    (∀ kvs, app.checkver = Jval.obj kvs →
       truthy (getProp app.checkver "script") = true →
       checkNewVersion env app = "") ∧
    (∀ cv content, app.checkver = Jval.str cv → cv ≠ "github" →
       env.fetchText (jsToString app.homepage) = .ok content →
       env.matchAll (Jval.str cv) content = .ok [] →
       checkNewVersion env app = "") := by
  refine ⟨?_, ?_, ?_⟩
  · intro e h
    rw [checkNewVersion_unfold, h]
  · intro kvs hcv hscript
    rw [hcv] at hscript
    rw [checkNewVersion_unfold]
    have hinner : _checkNewVersion env app = .ok (Jval.str "") := by
      unfold _checkNewVersion
      rw [hcv]
      unfold checkverObjBranch
      simp [hscript, pure, Except.pure]
    rw [hinner]
    rfl
  · intro cv content hcv hne hfetch hmatch
    rw [checkNewVersion_unfold]
    have hbeq : (cv == "github") = false := beq_eq_false_iff_ne.mpr hne
    have hinner : _checkNewVersion env app = .ok (Jval.str "") := by
      unfold _checkNewVersion
      rw [hcv]
      simp [hbeq, hfetch, hmatch, Bind.bind, Except.bind, pure, Except.pure]
    rw [hinner]
    rfl

def envErrC1 : Env :=
  { fetchJson := fun _ => .error ()
    fetchText := fun _ => .error ()
    matchAll := fun _ _ => .error ()
    matchFirst := fun _ _ => .error () }

def appGithubC1 : AppInfo :=
  { appName := "x", dirPath := "", version := Jval.str "1.0.0",
    description := Jval.str "", exeName := "",
    homepage := Jval.str "https://github.com/owner/repo",
    checkver := Jval.str "github", bucket := Jval.str "main" }

/-- Witness for C1: a network failure during a GitHub check collapses
to the empty string. -/
theorem checkNewVersion_collapses_errors_witness :
    checkNewVersion envErrC1 appGithubC1 = "" :=
  (checkNewVersion_collapses_errors envErrC1 appGithubC1).1 () rfl

/-- C2: every raw version string produced by any strategy passes
through the single `format` funnel (`clean(raw) || ''`) before
reaching the caller; `"1.2.3"` survives unchanged, a leading `"v"` is
stripped, and an unparseable input yields the empty string. -/
theorem checkNewVersion_semver_funnel (env : Env) (app : AppInfo) :
    (∀ s, _checkNewVersion env app = .ok (Jval.str s) →
       checkNewVersion env app = formatStr s) ∧
    formatStr "1.2.3" = "1.2.3" ∧
    formatStr "v2.0.0" = "2.0.0" ∧
    formatStr "not-a-version" = "" := by
  refine ⟨?_, rfl, rfl, rfl⟩
  intro s h
  rw [checkNewVersion_unfold, h]
  rfl

def envC2 : Env :=
  { fetchJson := fun _ => .error ()
    fetchText := fun _ => .ok "release 1.9.1 is out"
    matchAll := fun _ _ =>
      .ok [{ whole := "1.9.1", caps := [some "1.9.1"], named := none }]
    matchFirst := fun _ _ => .error () }

def appC2 : AppInfo :=
  { appName := "y", dirPath := "", version := Jval.str "1.0.0",
    description := Jval.str "", exeName := "",
    homepage := Jval.str "https://example.com",
    checkver := Jval.str "(\\d+\\.\\d+\\.\\d+)", bucket := Jval.str "main" }

/-- Witness for C2: a raw `"1.9.1"` from the homepage-regex strategy
reaches the caller as `formatStr "1.9.1" = "1.9.1"`. -/
theorem checkNewVersion_semver_funnel_witness :
    checkNewVersion envC2 appC2 = "1.9.1" :=
  ((checkNewVersion_semver_funnel envC2 appC2).1 "1.9.1" rfl).trans rfl

def mfShortcutsOnly : Jval :=
  Jval.obj [("shortcuts", Jval.arr [Jval.arr [Jval.str "a.exe"]])]

def mfBinOnly : Jval := Jval.obj [("bin", Jval.str "b.exe")]

def mfEmpty : Jval := Jval.obj []

def mfArch64Bin : Jval :=
  Jval.obj [("architecture",
    Jval.obj [("64bit", Jval.obj [("bin", Jval.str "c.exe")])])]

def mfShortcutsAndBin : Jval :=
  Jval.obj [("shortcuts", Jval.arr [Jval.arr [Jval.str "a.exe"]]),
            ("bin", Jval.str "b.exe")]

/-- Counterexample for C3: the second locator variant does not return
`""` when the resolved architecture key is absent from the
`architecture` block — it throws a `TypeError`
(`manifestContent.architecture[arch]` is `undefined` and its
`.shortcuts` is dereferenced, `src/core/index.ts` line 430). -/
theorem getAppExeFromManifestV2_throws_on_absent_arch :
    getAppExeFromManifestV2 "arm64" mfArch64Bin = Except.error () ∧
    getAppExeFromManifestV2 "arm64" mfArch64Bin ≠ Except.ok "" := by
  have h : getAppExeFromManifestV2 "arm64" mfArch64Bin = Except.error () := rfl
  exact ⟨h, by rw [h]; simp⟩

/-- C3 (amended): both locator variants resolve top-level `shortcuts`,
then top-level `bin`, then the architecture block keyed by the running
architecture; on the listed manifests they return `"a.exe"`,
`"b.exe"`, `""` and `"c.exe"` respectively, and `shortcuts` wins over
`bin`.  When the resolved architecture key is absent, the first
variant returns `""` without throwing, while the second variant
throws (its caller catches the error per package). -/
theorem getAppExeFromManifest_resolution_order :
    getAppExeFromManifest "x64" mfShortcutsOnly = "a.exe" ∧
    getAppExeFromManifest "x64" mfBinOnly = "b.exe" ∧
    getAppExeFromManifest "x64" mfEmpty = "" ∧
    getAppExeFromManifest "x64" mfArch64Bin = "c.exe" ∧
    getAppExeFromManifest "arm64" mfArch64Bin = "" ∧
    getAppExeFromManifest "x64" mfShortcutsAndBin = "a.exe" ∧
    getAppExeFromManifestV2 "x64" mfShortcutsOnly = Except.ok "a.exe" ∧
    getAppExeFromManifestV2 "x64" mfBinOnly = Except.ok "b.exe" ∧
    getAppExeFromManifestV2 "x64" mfEmpty = Except.ok "" ∧
    getAppExeFromManifestV2 "x64" mfArch64Bin = Except.ok "c.exe" ∧
    getAppExeFromManifestV2 "x64" mfShortcutsAndBin = Except.ok "a.exe" ∧
    getAppExeFromManifestV2 "arm64" mfArch64Bin = Except.error () :=
  ⟨rfl, rfl, rfl, rfl, rfl, rfl, rfl, rfl, rfl, rfl, rfl, rfl⟩

/-- C4: flattening a `shortcuts`/`bin` declaration treats a bare
string leaf as itself (never as its characters), and an arbitrarily
nested list is flattened fully, the first element of the flattening
being the result. -/
theorem getFirstFlatItem_spec :
    (∀ s, getFirstFlatItem (Jval.str s) = Jval.str s) ∧
    (∀ l s rest, flattenL l = Jval.str s :: rest →
       getFirstFlatItem (Jval.arr l) = Jval.str s) := by
  refine ⟨fun s => rfl, ?_⟩
  intro l s rest h
  show (flattenL l).headD Jval.undefined = Jval.str s
  rw [h]
  rfl

/-- Witness for C4: a bare string survives unchanged, and a
three-deep nesting flattens to its first string. -/
theorem getFirstFlatItem_spec_witness :
    getFirstFlatItem (Jval.str "bare.exe") = Jval.str "bare.exe" ∧
    getFirstFlatItem
        (Jval.arr [Jval.arr [Jval.arr [Jval.str "deep.exe"]], Jval.str "b"])
      = Jval.str "deep.exe" :=
  ⟨getFirstFlatItem_spec.1 "bare.exe",
   getFirstFlatItem_spec.2 [Jval.arr [Jval.arr [Jval.str "deep.exe"]], Jval.str "b"]
     "deep.exe" [Jval.str "b"] rfl⟩

/-- C5: a package whose `manifest.json` or `install.json` fails to
read or parse resolves to `null` rather than throwing, and
enumeration over three package directories of which the middle one is
corrupt yields exactly the two valid records. -/
theorem getAppInfo_isolated_failures (fs : FS) (pa root : String) :
    (∀ name e, fs.readJson (appCurrentDir root name ++ "/manifest.json")
         = .error e → getAppInfo fs pa root name = none) ∧
    (∀ name e, fs.readJson (appCurrentDir root name ++ "/install.json")
         = .error e → getAppInfo fs pa root name = none) ∧
    (∀ d1 d2 d3 r1 r3, isValidScoopRoot fs root = true →
       fs.appsDirs = .ok [d1, d2, d3] →
       getAppInfo fs pa root d1 = some r1 →
       getAppInfo fs pa root d2 = none →
       getAppInfo fs pa root d3 = some r3 →
       getScoopList fs pa root = .ok [r1, r3]) := by
  refine ⟨?_, ?_, ?_⟩
  · intro name e h
    simp [getAppInfo, h, Bind.bind, Except.bind]
  · intro name e h
    cases hm : fs.readJson (appCurrentDir root name ++ "/manifest.json") with
    | error e2 => simp [getAppInfo, hm, Bind.bind, Except.bind]
    | ok m => simp [getAppInfo, hm, h, Bind.bind, Except.bind]
  · intro d1 d2 d3 r1 r3 hvalid hdirs h1 h2 h3
    simp [getScoopList, hvalid, hdirs, h1, h2, h3]

def fsThreeApps : FS :=
  { rootAccessOk := true
    appsDirs := .ok ["alpha", "broken", "gamma"]
    readJson := fun p =>
      if p == "R/apps/alpha/current/manifest.json" then
        .ok (Jval.obj [("version", Jval.str "1.0.0"),
                       ("description", Jval.str "first app")])
      else if p == "R/apps/alpha/current/install.json" then
        .ok (Jval.obj [("bucket", Jval.str "main")])
      else if p == "R/apps/broken/current/manifest.json" then
        .error ()
      else if p == "R/apps/broken/current/install.json" then
        .ok (Jval.obj [("bucket", Jval.str "main")])
      else if p == "R/apps/gamma/current/manifest.json" then
        .ok (Jval.obj [("version", Jval.str "2.0.0")])
      else if p == "R/apps/gamma/current/install.json" then
        .ok (Jval.obj [("bucket", Jval.str "extras")])
      else .error () }

def appAlpha : AppInfo :=
  mkAppInfo "x64" "alpha" (appCurrentDir "R" "alpha")
    (Jval.obj [("version", Jval.str "1.0.0"),
               ("description", Jval.str "first app")])
    (Jval.obj [("bucket", Jval.str "main")])

def appGamma : AppInfo :=
  mkAppInfo "x64" "gamma" (appCurrentDir "R" "gamma")
    (Jval.obj [("version", Jval.str "2.0.0")])
    (Jval.obj [("bucket", Jval.str "extras")])

/-- Witness for C5: with `broken`'s manifest corrupt, enumeration
returns exactly the `alpha` and `gamma` records. -/
theorem getAppInfo_isolated_failures_witness :
    getScoopList fsThreeApps "x64" "R" = .ok [appAlpha, appGamma] :=
  (getAppInfo_isolated_failures fsThreeApps "x64" "R").2.2
    "alpha" "broken" "gamma" appAlpha appGamma rfl rfl rfl rfl rfl

/-- C10: for a valid root whose `apps` directory lists zero
subdirectories, both enumeration variants fail with
`'No Scoop apps found.'` instead of returning an empty list. -/
theorem getScoopList_empty_apps_error (fs : FS) (pa root : String)
    (hvalid : isValidScoopRoot fs root = true)
    (hdirs : fs.appsDirs = .ok []) :
    getScoopList fs pa root = .error "No Scoop apps found." ∧
    getScoopListV2 fs pa root = .error "No Scoop apps found." := by
  constructor
  · simp [getScoopList, hvalid, hdirs]
  · simp [getScoopListV2, hvalid, hdirs]

def fsNoApps : FS :=
  { rootAccessOk := true
    appsDirs := .ok []
    readJson := fun _ => .error () }

/-- Witness for C10: a valid root with an empty `apps` directory. -/
theorem getScoopList_empty_apps_error_witness :
    getScoopList fsNoApps "x64" "R" = .error "No Scoop apps found." ∧
    getScoopListV2 fsNoApps "x64" "R" = .error "No Scoop apps found." :=
  getScoopList_empty_apps_error fsNoApps "x64" "R" rfl rfl

def fsNoDescription : FS :=
  { rootAccessOk := true
    appsDirs := .ok ["app"]
    readJson := fun p =>
      if p == "R/apps/app/current/manifest.json" then
        .ok (Jval.obj [("version", Jval.str "1.0.0")])
      else if p == "R/apps/app/current/install.json" then
        .ok (Jval.obj [("bucket", Jval.str "main")])
      else .error () }

/-- Counterexample for C8: when the manifest has no `description`
field, the resulting record's `description` is the JavaScript
`undefined` value, not the empty string (`description` has no
`|| ''` default, unlike `homepage`, `src/core/index.ts` line 267). -/
theorem getAppInfo_description_absent_not_empty :
    (getAppInfo fsNoDescription "x64" "R" "app").map (fun a => a.description)
        = some Jval.undefined ∧
    Jval.undefined ≠ Jval.str "" :=
  ⟨rfl, fun h => Jval.noConfusion h⟩

/-- C8 (amended): a `description` declared as a list yields its first
element, a string yields itself, and an absent field leaves the
record's `description` `undefined` (not the empty string). -/
theorem getAppInfo_description_normalization (fs : FS) (pa root name : String)
    (m inst : Jval)
    (hm : fs.readJson (appCurrentDir root name ++ "/manifest.json") = .ok m)
    (hi : fs.readJson (appCurrentDir root name ++ "/install.json") = .ok inst) :
    ∃ a, getAppInfo fs pa root name = some a ∧
      a.description = normalizeDescription m ∧
      (∀ l, getProp m "description" = Jval.arr l →
         a.description = l.headD Jval.undefined) ∧
      (∀ s, getProp m "description" = Jval.str s →
         a.description = Jval.str s) ∧
      (getProp m "description" = Jval.undefined → a.description = Jval.undefined) := by
  refine ⟨mkAppInfo pa name (appCurrentDir root name) m inst, ?_, rfl, ?_, ?_, ?_⟩
  · simp [getAppInfo, hm, hi, Bind.bind, Except.bind, pure, Except.pure]
  · intro l h
    simp [mkAppInfo, normalizeDescription, h]
  · intro s h
    simp [mkAppInfo, normalizeDescription, h]
  · intro h
    simp [mkAppInfo, normalizeDescription, h]

def fsC8 : FS :=
  { rootAccessOk := true
    appsDirs := .ok ["app"]
    readJson := fun p =>
      if p == "R/apps/app/current/manifest.json" then
        .ok (Jval.obj [("version", Jval.str "1.0.0"),
                       ("description",
                        Jval.arr [Jval.str "first line", Jval.str "second line"])])
      else if p == "R/apps/app/current/install.json" then
        .ok (Jval.obj [("bucket", Jval.str "main")])
      else .error () }

/-- Witness for C8 (amended): a list-valued `description` yields its
first element. -/
theorem getAppInfo_description_normalization_witness :
    (getAppInfo fsC8 "x64" "R" "app").map (fun a => a.description)
      = some (Jval.str "first line") := by
  obtain ⟨a, ha, -, hlist, -, -⟩ :=
    getAppInfo_description_normalization fsC8 "x64" "R" "app"
      (Jval.obj [("version", Jval.str "1.0.0"),
                 ("description",
                  Jval.arr [Jval.str "first line", Jval.str "second line"])])
      (Jval.obj [("bucket", Jval.str "main")]) rfl rfl
  rw [ha]
  show some a.description = some (Jval.str "first line")
  rw [hlist [Jval.str "first line", Jval.str "second line"] rfl]
  rfl

/-- C6: the `"github"` string strategy strips the
`https?://(www.)?github.com/` prefix from the homepage, fetches the
releases list, selects the first entry whose `prerelease` flag is
falsy and returns its tag name (empty when no such entry exists or
the call fails), the tag then passing through the `format` funnel. -/
theorem checkNewVersion_github_string (env : Env) (app : AppInfo) (hp : String)
    (hcv : app.checkver = Jval.str "github")
    (hhp : app.homepage = Jval.str hp) :
    (∀ l r t,
       env.fetchJson (githubApiUrl (dropGithubUrl hp)) = .ok (Jval.arr l) →
       l.find? (fun x => !truthy (getProp x "prerelease")) = some r →
       getProp r "tag_name" = Jval.str t →
       checkNewVersion env app = formatStr t) ∧
    (∀ l,
       env.fetchJson (githubApiUrl (dropGithubUrl hp)) = .ok (Jval.arr l) →
       l.find? (fun x => !truthy (getProp x "prerelease")) = none →
       checkNewVersion env app = "") ∧
    (∀ e : Unit,
       env.fetchJson (githubApiUrl (dropGithubUrl hp)) = .error e →
       checkNewVersion env app = "") := by
  refine ⟨?_, ?_, ?_⟩
  · intro l r t hfetch hfind htag
    have hinner : _checkNewVersion env app = .ok (Jval.str t) := by
      unfold _checkNewVersion
      rw [hcv]
      simp [hhp, asString, hfetch, selectLatestRelease, hfind,
        tagNameOrEmpty, htag, nullish, Bind.bind, Except.bind, pure, Except.pure]
    rw [checkNewVersion_unfold, hinner]
    rfl
  · intro l hfetch hfind
    have hinner : _checkNewVersion env app = .ok (Jval.str "") := by
      unfold _checkNewVersion
      rw [hcv]
      simp [hhp, asString, hfetch, selectLatestRelease, hfind,
        tagNameOrEmpty, Bind.bind, Except.bind, pure, Except.pure]
    rw [checkNewVersion_unfold, hinner]
    rfl
  · intro e hfetch
    have hinner : _checkNewVersion env app = .error e := by
      unfold _checkNewVersion
      rw [hcv]
      simp [hhp, asString, hfetch, Bind.bind, Except.bind, pure, Except.pure]
    rw [checkNewVersion_unfold, hinner]

def relStable : Jval :=
  Jval.obj [("tag_name", Jval.str "v2.0.0"), ("prerelease", Jval.bool false)]

def relPre : Jval :=
  Jval.obj [("tag_name", Jval.str "v2.1.0-rc1"), ("prerelease", Jval.bool true)]

def envC6 : Env :=
  { fetchJson := fun url =>
      if url == "https://api.github.com/repos/owner/repo/releases" then
        .ok (Jval.arr [relStable, relPre])
      else .error ()
    fetchText := fun _ => .error ()
    matchAll := fun _ _ => .error ()
    matchFirst := fun _ _ => .error () }

def appC6 : AppInfo :=
  { appName := "repo", dirPath := "", version := Jval.str "1.0.0",
    description := Jval.str "", exeName := "",
    homepage := Jval.str "https://github.com/owner/repo",
    checkver := Jval.str "github", bucket := Jval.str "main" }

/-- Witness for C6: the releases list
`[{tag_name: "v2.0.0", prerelease: false},
{tag_name: "v2.1.0-rc1", prerelease: true}]` resolves to `"v2.0.0"`,
normalised to `"2.0.0"`. -/
theorem checkNewVersion_github_string_witness :
    checkNewVersion envC6 appC6 = "2.0.0" :=
  ((checkNewVersion_github_string envC6 appC6 "https://github.com/owner/repo"
      rfl rfl).1 [relStable, relPre] relStable "v2.0.0" rfl rfl rfl).trans rfl

/-- C7: in the structured `url` variant with a regex, the candidate is
the last match when `reverse` is truthy and the first match otherwise;
with a `replace` template, every occurrence of each named group's
placeholder is substituted with the group's captured text, else the
first capture group (or whole match) is taken. -/
theorem checkNewVersion_url_regex_selection (env : Env) (app : AppInfo)
    (kvs : List (String × Jval)) (content : String)
    (m0 : RegexMatch) (rest : List RegexMatch)
    (hcv : app.checkver = Jval.obj kvs)
    (hscript : truthy (getProp (Jval.obj kvs) "script") = false)
    (hgithub : truthy (getProp (Jval.obj kvs) "github") = false)
    (hsf : truthy (getProp (Jval.obj kvs) "sourceforge") = false)
    (hurl : truthy (getProp (Jval.obj kvs) "url") = true)
    (hfetch : env.fetchText (jsToString (getProp (Jval.obj kvs) "url"))
        = .ok content)
    (hregex : truthy (jsOr (getProp (Jval.obj kvs) "regex")
        (getProp (Jval.obj kvs) "re")) = true)
    (hmatch : env.matchAll (jsOr (getProp (Jval.obj kvs) "regex")
        (getProp (Jval.obj kvs) "re")) content = .ok (m0 :: rest)) :
    (truthy (getProp (Jval.obj kvs) "reverse") = true →
       truthy (getProp (Jval.obj kvs) "replace") = false →
       _checkNewVersion env app
         = .ok (firstCapOrWhole ((m0 :: rest).getLast (List.cons_ne_nil m0 rest)))) ∧
    (truthy (getProp (Jval.obj kvs) "reverse") = false →
       truthy (getProp (Jval.obj kvs) "replace") = false →
       _checkNewVersion env app = .ok (firstCapOrWhole m0)) ∧
    (∀ rep groups,
       getProp (Jval.obj kvs) "replace" = Jval.str rep → rep ≠ "" →
       (if truthy (getProp (Jval.obj kvs) "reverse")
        then (m0 :: rest).getLast (List.cons_ne_nil m0 rest)
        else m0).named = some groups →
       _checkNewVersion env app = .ok (Jval.str (groups.foldl
         (fun acc kv => strReplaceAll acc (groupPlaceholder kv.1) kv.2) rep))) := by
  have hbranch : _checkNewVersion env app = checkverObjBranch env (Jval.obj kvs) := by
    unfold _checkNewVersion
    rw [hcv]
  refine ⟨?_, ?_, ?_⟩
  · intro hrev hrep
    rw [hbranch]
    unfold checkverObjBranch
    simp [hscript, hgithub, hsf, hurl, hfetch, hregex, hmatch, hrev, hrep,
      Bind.bind, Except.bind, pure, Except.pure]
  · intro hrev hrep
    rw [hbranch]
    unfold checkverObjBranch
    simp [hscript, hgithub, hsf, hurl, hfetch, hregex, hmatch, hrev, hrep,
      Bind.bind, Except.bind, pure, Except.pure]
  · intro rep groups hrepl hne hnamed
    have htrue : truthy (Jval.str rep) = true := by
      simp [truthy, hne]
    rw [hbranch]
    unfold checkverObjBranch
    simp [hscript, hgithub, hsf, hurl, hfetch, hregex, hmatch, htrue,
      hrepl, Bind.bind, Except.bind, pure, Except.pure]
    cases hrev : truthy (getProp (Jval.obj kvs) "reverse") with
    | true =>
      rw [hrev] at hnamed
      simp at hnamed
      simp [applyReplace, hnamed]
    | false =>
      rw [hrev] at hnamed
      simp at hnamed
      simp [applyReplace, hnamed]

def mC7a : RegexMatch := { whole := "1.0", caps := [], named := none }
def mC7b : RegexMatch := { whole := "2.0", caps := [], named := none }
def mC7c : RegexMatch := { whole := "3.0", caps := [], named := none }

def envC7 : Env :=
  { fetchJson := fun _ => .error ()
    fetchText := fun _ => .ok "1.0 2.0 3.0"
    matchAll := fun _ _ => .ok [mC7a, mC7b, mC7c]
    matchFirst := fun _ _ => .error () }

def appC7rev : AppInfo :=
  { appName := "u", dirPath := "", version := Jval.str "0.1.0",
    description := Jval.str "", exeName := "",
    homepage := Jval.str "",
    checkver := Jval.obj [("url", Jval.str "https://dl.example/v"),
                          ("regex", Jval.str "\\d+\\.\\d+"),
                          ("reverse", Jval.bool true)],
    bucket := Jval.str "main" }

def appC7fwd : AppInfo :=
  { appName := "u", dirPath := "", version := Jval.str "0.1.0",
    description := Jval.str "", exeName := "",
    homepage := Jval.str "",
    checkver := Jval.obj [("url", Jval.str "https://dl.example/v"),
                          ("regex", Jval.str "\\d+\\.\\d+")],
    bucket := Jval.str "main" }

def mC7named : RegexMatch :=
  { whole := "version 3.4"
    caps := [some "3", some "4"]
    named := some [("major", "3"), ("minor", "4")] }

def envC7rep : Env :=
  { fetchJson := fun _ => .error ()
    fetchText := fun _ => .ok "version 3.4"
    matchAll := fun _ _ => .ok [mC7named]
    matchFirst := fun _ _ => .error () }

def appC7rep : AppInfo :=
  { appName := "u", dirPath := "", version := Jval.str "0.1.0",
    description := Jval.str "", exeName := "",
    homepage := Jval.str "",
    checkver := Jval.obj [("url", Jval.str "https://dl.example/v"),
                          ("regex", Jval.str "version (?<major>\\d+)\\.(?<minor>\\d+)"),
                          ("replace", Jval.str "$\x7bmajor\x7d.$\x7bminor\x7d.0")],
    bucket := Jval.str "main" }

/-- Witness for C7: with matches `["1.0", "2.0", "3.0"]`, `reverse`
selects `"3.0"` and its absence selects `"1.0"`; with groups
`(major: "3", minor: "4")` the template produces `"3.4.0"`. -/
theorem checkNewVersion_url_regex_selection_witness :
    _checkNewVersion envC7 appC7rev = .ok (Jval.str "3.0") ∧
    _checkNewVersion envC7 appC7fwd = .ok (Jval.str "1.0") ∧
    _checkNewVersion envC7rep appC7rep = .ok (Jval.str "3.4.0") :=
  ⟨((checkNewVersion_url_regex_selection envC7 appC7rev _ _ mC7a [mC7b, mC7c]
      rfl rfl rfl rfl rfl rfl rfl rfl).1 rfl rfl).trans rfl,
   ((checkNewVersion_url_regex_selection envC7 appC7fwd _ _ mC7a [mC7b, mC7c]
      rfl rfl rfl rfl rfl rfl rfl rfl).2.1 rfl rfl).trans rfl,
   ((checkNewVersion_url_regex_selection envC7rep appC7rep _ _ mC7named []
      rfl rfl rfl rfl rfl rfl rfl rfl).2.2 "$\x7bmajor\x7d.$\x7bminor\x7d.0"
      [("major", "3"), ("minor", "4")] rfl (by decide) rfl).trans rfl⟩

/-- Counterexample for C9: `explorer /select` exiting with code 2 is
rejected, not treated as success — the special case only fires for
exit code exactly 1 (`error?.code === 1`, `src/logic/index.ts`
line 9). -/
theorem execPromise_explorer_code_two_rejects :
    execPromiseOutcome "explorer /select,\"C:\\app.exe\""
        (some { code := some 2 }) = Settle.rejected ∧
    Settle.rejected ≠ Settle.resolved :=
  ⟨rfl, fun h => Settle.noConfusion h⟩

/-- C9 (amended): `execPromise` treats an `explorer /select` command
exiting with code exactly 1 as success (the `resolve()` fired by the
special case wins over the later `reject`), while every other command
with an exec error — any non-zero exit — is a failure. -/
theorem execPromise_explorer_exit_one (command : String) (err : ExecError) :
    (strStartsWith "explorer /select" command = true → err.code = some 1 →
       execPromiseOutcome command (some err) = Settle.resolved) ∧
    (strStartsWith "explorer /select" command = false →
       execPromiseOutcome command (some err) = Settle.rejected) := by
  constructor
  · intro hs hc
    simp [execPromiseOutcome, execPromiseSettles, hs, hc]
  · intro hs
    simp [execPromiseOutcome, execPromiseSettles, hs]

/-- Witness for C9 (amended): `explorer /select` with exit code 1
resolves; another command with the same exit code rejects. -/
theorem execPromise_explorer_exit_one_witness :
    execPromiseOutcome "explorer /select,\"C:\\app.exe\""
        (some { code := some 1 }) = Settle.resolved ∧
    execPromiseOutcome "scoop update main/foo"
        (some { code := some 1 }) = Settle.rejected :=
  ⟨(execPromise_explorer_exit_one "explorer /select,\"C:\\app.exe\""
      { code := some 1 }).1 rfl rfl,
   (execPromise_explorer_exit_one "scoop update main/foo"
      { code := some 1 }).2 rfl⟩

/-- Sanity checks of the `semver.clean` model against the behaviour
the repository's test suite pins down (`test/index.test.ts` expects
`semver.clean` to reject `V7.8.1` even under loose parsing). -/
theorem cleanSemver_examples :
    cleanSemver "1.2.3" = some "1.2.3" ∧
    cleanSemver "v2.0.0" = some "2.0.0" ∧
    cleanSemver "not-a-version" = none ∧
    cleanSemver "V7.8.1" = none ∧
    cleanSemver "" = none ∧
    cleanSemver " v1.2.3-rc.1+build5 " = some "1.2.3-rc.1" :=
  ⟨rfl, rfl, rfl, rfl, rfl, rfl⟩

/-- Sanity check of the homepage prefix stripping. -/
theorem dropGithubUrl_examples :
    dropGithubUrl "https://github.com/owner/repo" = "owner/repo" ∧
    dropGithubUrl "http://www.github.com/a/b" = "a/b" ∧
    dropGithubUrl "owner/repo" = "owner/repo" :=
  ⟨rfl, rfl, rfl⟩
